import Mathlib

/-!
Verification of `volume_maker.py` (manga_volume_maker): a shallow embedding of
the merge pipeline — chapter discovery (`find_chapter_folders`), page
enumeration (`get_image_files`), cover handling, sequential renumbering, CBZ
assembly and cleanup (`merge_chapters`) — together with a model of the CLI
argument parsing in `main`.

Filesystem interaction is abstracted into an `Env` record: the base-directory
listing, per-chapter-folder listings, existence flags for the target archive /
cover / staging directory, the interactive overwrite answer, and success
oracles for the individual copy operations and for the CBZ write.  The outcome
of a run is an `Outcome` record capturing the Python return value, the exit
point taken, the final state of the target archive path and of the staging
directory, the successfully placed page entries, and an event trace recording
the order of the side effects.
-/

/-- Numeric value of a list of ASCII digit characters (Python `int` on a digit
run); `0` on the empty list. -/
def digitsVal (ds : List Char) : Nat :=
  ds.foldl (fun a c => a * 10 + (c.toNat - '0'.toNat)) 0

/-- Python `str.lower`, restricted to the ASCII range (`Char.toLower` lowers
only `'A'`-`'Z'`; the filenames and extensions compared here are ASCII). -/
def toLowerStr (s : String) : String := String.mk (s.toList.map Char.toLower)

/-- Models `re.match(r'Chapter (\d+)', item)` from `find_chapter_folders`
(line 35): an anchored *beginning-of-string* match — the name must start with
the literal `"Chapter "` immediately followed by at least one digit; the value
of that maximal digit run is returned.  Trailing characters after the digits
are allowed, exactly as with `re.match`. -/
def chapterMatch (name : String) : Option Nat :=
  if name.toList.take 8 = "Chapter ".toList then
    let ds := (name.toList.drop 8).takeWhile Char.isDigit
    if ds.isEmpty then none else some (digitsVal ds)
  else none

/-- Models `re.search(r'(\d+)', filename)` + `int` from `get_image_files`
(lines 63-65): the value of the first run of digits anywhere in the filename,
`0` when the filename contains no digit. -/
def extractNumber (name : String) : Nat :=
  digitsVal ((name.toList.dropWhile (fun c => !c.isDigit)).takeWhile Char.isDigit)

/-- Index of the last occurrence of `c` in `cs`, if any. -/
def lastIdxOf (c : Char) (cs : List Char) : Option Nat :=
  cs.enum.foldl (fun acc p => if p.2 = c then some p.1 else acc) none

/-- Models the extension part of `os.path.splitext` (posixpath): the suffix of
the basename (the part after the last `'/'`) starting at its last `'.'`,
except that a basename whose characters before that dot are all dots (e.g.
`".jpg"`, `"..jpg"`) has no extension. -/
def splitextExt (p : String) : String :=
  let cs := p.toList
  let base := match lastIdxOf '/' cs with
    | some i => cs.drop (i + 1)
    | none => cs
  match lastIdxOf '.' base with
  | none => ""
  | some i => if (base.take i).any (fun c => c ≠ '.') then String.mk (base.drop i) else ""

/-- The recognized image extensions (lines 48 and 100). -/
def imageExtensions : List String := [".jpg", ".jpeg", ".png", ".gif", ".bmp", ".webp"]

/-- The extension test applied by `get_image_files` (lines 55-56): the name is
lowercased first, then split; membership in `imageExtensions`. -/
def isImageName (file : String) : Bool :=
  imageExtensions.contains (splitextExt (toLowerStr file))

/-- Comparison by a `Nat`-valued key; both sorts in the source (line 42 and
line 67) are Python's stable `list.sort` with such a key. -/
def keyLE {α : Type} (key : α → Nat) (a b : α) : Prop := key a ≤ key b

instance {α : Type} (key : α → Nat) : DecidableRel (keyLE key) :=
  fun a b => Nat.decLe (key a) (key b)

instance {α : Type} (key : α → Nat) : IsTotal α (keyLE key) :=
  ⟨fun a b => Nat.le_total (key a) (key b)⟩

instance {α : Type} (key : α → Nat) : IsTrans α (keyLE key) :=
  ⟨fun _ _ _ h1 h2 => Nat.le_trans h1 h2⟩

/-- One base-directory entry as tested by the loop body of
`find_chapter_folders` (lines 31-39): kept iff it is a directory whose name
matches `chapterMatch` with the number inside `[startC, endC]`. -/
def chapterEntry (startC endC : Int) (p : String × Bool) : Option (Nat × String) :=
  if p.2 then
    match chapterMatch p.1 with
    | some n => if startC ≤ (n : Int) ∧ (n : Int) ≤ endC then some (n, p.1) else none
    | none => none
  else none

/-- `find_chapter_folders` (lines 26-43) over an abstract base-directory
listing of `(name, isDirectory)` pairs: filter to matching chapter directories
and stable-sort ascending by chapter number.  (The source stores
`(number, full path)`; the path is the base path joined with the name, so the
name stands in for it here.) -/
def find_chapter_folders (listing : List (String × Bool)) (startC endC : Int) :
    List (Nat × String) :=
  List.insertionSort (keyLE Prod.fst) (listing.filterMap (chapterEntry startC endC))

/-- One chapter-folder entry as tested by the loop body of `get_image_files`
(lines 52-57): kept iff it is a regular file with a recognized image
extension. -/
def imageEntry (p : String × Bool) : Option String :=
  if p.2 && isImageName p.1 then some p.1 else none

/-- `get_image_files` (lines 46-68) over an abstract folder listing of
`(name, isFile)` pairs; `none` models the `OSError` branch (lines 58-60),
which returns the empty list.  Image files are stable-sorted ascending by the
first digit run in their name. -/
def get_image_files (entries : Option (List (String × Bool))) : List String :=
  match entries with
  | none => []
  | some es => List.insertionSort (keyLE extractNumber) (es.filterMap imageEntry)

/-- Python `f"{n:03d}"` for the non-negative page counter (line 134 / 165):
zero-pad to at least three digits. -/
def pad3 (n : Nat) : String :=
  if n < 10 then "00" ++ toString n
  else if n < 100 then "0" ++ toString n
  else toString n

/-- The overwrite prompt's acceptance test (line 88): the run proceeds iff
`response.lower() == 'y'`. -/
def answersYes (response : String) : Bool := toLowerStr response == "y"

/-- The default output-folder name (lines 75-79). -/
def defaultOutputFolder (startC endC : Int) (outputFolder : Option String) : String :=
  match outputFolder with
  | some s => s
  | none =>
    if startC == endC then "Chapter_" ++ toString startC ++ "_merged"
    else "Chapters_" ++ toString startC ++ "-" ++ toString endC ++ "_merged"

/-- What the run leaves at the target archive path (`cbz_path`). -/
inductive CbzStatus where
  /-- No file at the target path. -/
  | absent
  /-- The pre-existing archive, untouched. -/
  | original
  /-- A partially-written archive left by a failed CBZ write. -/
  | incomplete
  /-- A fully written archive with the given entry names. -/
  | complete (entries : List String)
deriving DecidableEq

/-- Where `merge_chapters` returned. -/
inductive ExitPoint where
  /-- Overwrite declined (line 90). -/
  | cancelled
  /-- Cover path does not exist (line 97). -/
  | coverMissing
  /-- Cover extension not recognized (line 104). -/
  | coverBadExt
  /-- No chapter folders in range (line 120). -/
  | noChapters
  /-- Copying the cover into staging raised (line 144). -/
  | coverCopyFailed
  /-- CBZ creation raised (line 209). -/
  | zipFailed
  /-- Normal completion (line 202). -/
  | success
deriving DecidableEq

/-- Side-effect events of one `merge_chapters` run, in program order. -/
inductive Ev where
  /-- The interactive overwrite prompt (line 87). -/
  | prompt
  /-- `os.remove(cbz_path)` (line 91). -/
  | removeCbz
  /-- `shutil.rmtree(output_path)` on a pre-existing staging directory (line 110). -/
  | rmtreeOldStaging
  /-- `os.makedirs(output_path)` (line 112). -/
  | makeStaging
  /-- `find_chapter_folders` scanning the base directory (line 116). -/
  | findChapters
  /-- `shutil.copy2` of the cover (line 138), with its success. -/
  | copyCover (ok : Bool)
  /-- Opening the CBZ for writing (line 179). -/
  | zipStart
  /-- The CBZ write completed (line 186). -/
  | zipDone
  /-- The CBZ write raised (line 204). -/
  | zipFail
  /-- `shutil.rmtree(output_path)` cleanup (line 200 / 208). -/
  | cleanupStaging
deriving DecidableEq

/-- One successfully placed output page. -/
structure Placed where
  /-- The sequential page number used for its output name (`page_counter`). -/
  idx : Nat
  /-- The source file name (`original_name`, or the cover path). -/
  source : String
  /-- The output entry name (`new_name` / `cover_name`). -/
  staged : String
  /-- Whether this entry is the cover. -/
  isCover : Bool
deriving DecidableEq

/-- The inputs `merge_chapters` consumes, with the filesystem abstracted. -/
structure Env where
  /-- `os.listdir(base_path)` with `os.path.isdir` per entry. -/
  listing : List (String × Bool)
  /-- Per chapter-folder name: `os.listdir` with `os.path.isfile` per entry,
  or `none` when listing raises `OSError`. -/
  folderFiles : String → Option (List (String × Bool))
  /-- `start_chapter`. -/
  startC : Int
  /-- `end_chapter`. -/
  endC : Int
  /-- `cover_image_path` (`none` models Python `None`). -/
  cover : Option String
  /-- `os.path.exists(cover_image_path)`. -/
  coverExists : Bool
  /-- Whether `shutil.copy2` of the cover succeeds (line 138). -/
  coverCopyOk : Bool
  /-- `os.path.exists(cbz_path)` at entry (line 86). -/
  cbzExists : Bool
  /-- The `input()` answer to the overwrite prompt. -/
  response : String
  /-- Whether a directory already exists at `output_path` (line 109). -/
  stagingPreexists : Bool
  /-- Whether `shutil.copy2` succeeds, per chapter-folder name and file name
  (line 169). -/
  copyOk : String → String → Bool
  /-- Whether the CBZ write (lines 179-185) completes without raising. -/
  zipOk : Bool

/-- What one `merge_chapters` run returned and left behind. -/
structure Outcome where
  /-- The Python return value. -/
  ret : Bool
  /-- Which exit was taken. -/
  exitAt : ExitPoint
  /-- Final state of the target archive path. -/
  cbz : CbzStatus
  /-- Whether `os.makedirs(output_path)` ran. -/
  stagingCreated : Bool
  /-- Whether a directory exists at `output_path` when the call returns. -/
  stagingAtEnd : Bool
  /-- Whether a pre-existing directory at `output_path` was deleted. -/
  oldStagingGone : Bool
  /-- Whether the CBZ-creation `try` block was entered. -/
  zipAttempted : Bool
  /-- The successfully placed entries, in placement order. -/
  placed : List Placed
  /-- `total_pages`. -/
  totalPages : Nat
  /-- The side effects, in order. -/
  trace : List Ev
deriving DecidableEq

/-- Python truthiness of `cover_image_path` (`if cover_image_path:` at
lines 94 and 131): an empty string is falsy. -/
def coverGiven (env : Env) : Option String :=
  match env.cover with
  | some cp => if cp = "" then none else some cp
  | none => none

/-- The staged cover entry (lines 133-141): name `
{page_counter:03d}` + extension of the *lowercased* cover path, placed at
index 1. -/
def coverEntry (cp : String) : Placed :=
  ⟨1, cp, pad3 1 ++ splitextExt (toLowerStr cp), true⟩

/-- The inner copy loop of one chapter (lines 160-174), starting from
page counter `c` and running total `t`: each file gets the name
`{page_counter:03d}` + lowercased extension; on copy success it is placed and
both counters advance, on failure it is skipped. Returns the placed entries
and the final `(page_counter, total_pages)`. -/
def placeChapter (ok : String → Bool) : Nat → Nat → List String → List Placed × Nat × Nat
  | c, t, [] => ([], c, t)
  | c, t, f :: fs =>
    if ok f then
      (⟨c, f, pad3 c ++ splitextExt (toLowerStr f), false⟩ :: (placeChapter ok (c + 1) (t + 1) fs).1,
        (placeChapter ok (c + 1) (t + 1) fs).2)
    else
      placeChapter ok c t fs

/-- The outer chapter loop (lines 147-174): enumerate each chapter's images;
an empty enumeration is skipped (`continue`, line 155); otherwise the copy
loop runs with the carried counters. -/
def placeChapters (env : Env) : Nat → Nat → List (Nat × String) → List Placed × Nat × Nat
  | c, t, [] => ([], c, t)
  | c, t, ch :: rest =>
    if (get_image_files (env.folderFiles ch.2)).isEmpty then
      placeChapters env c t rest
    else
      ((placeChapter (env.copyOk ch.2) c t (get_image_files (env.folderFiles ch.2))).1 ++
          (placeChapters env (placeChapter (env.copyOk ch.2) c t (get_image_files (env.folderFiles ch.2))).2.1
            (placeChapter (env.copyOk ch.2) c t (get_image_files (env.folderFiles ch.2))).2.2 rest).1,
        (placeChapters env (placeChapter (env.copyOk ch.2) c t (get_image_files (env.folderFiles ch.2))).2.1
          (placeChapter (env.copyOk ch.2) c t (get_image_files (env.folderFiles ch.2))).2.2 rest).2)

/-- The CBZ-creation phase (lines 176-209), entered with the already-placed
cover entries `placed0` and counters `(c, t0)`: place all chapter pages, then
write every staged file into the archive.  On success (lines 186-202) the
archive is complete and the staging directory is removed; on a raised write
error (lines 204-209) the partially-written archive is left at the target
path and the staging directory is removed. -/
def zipPhase (env : Env) (tr : List Ev) (placed0 : List Placed) (c t0 : Nat)
    (chapters : List (Nat × String)) : Outcome :=
  if env.zipOk then
    { ret := true, exitAt := .success,
      cbz := .complete ((placed0 ++ (placeChapters env c t0 chapters).1).map (fun e => e.staged)),
      stagingCreated := true, stagingAtEnd := false,
      oldStagingGone := env.stagingPreexists, zipAttempted := true,
      placed := placed0 ++ (placeChapters env c t0 chapters).1,
      totalPages := (placeChapters env c t0 chapters).2.2,
      trace := tr ++ [Ev.zipStart, Ev.zipDone, Ev.cleanupStaging] }
  else
    { ret := false, exitAt := .zipFailed, cbz := .incomplete,
      stagingCreated := true, stagingAtEnd := false,
      oldStagingGone := env.stagingPreexists, zipAttempted := true,
      placed := placed0 ++ (placeChapters env c t0 chapters).1,
      totalPages := (placeChapters env c t0 chapters).2.2,
      trace := tr ++ [Ev.zipStart, Ev.zipFail, Ev.cleanupStaging] }

/-- The events of the staging-directory setup and the chapter scan
(lines 108-116): delete a pre-existing directory at `output_path`, create it,
then scan for chapters. -/
def stagingTrace (env : Env) (t1 : List Ev) : List Ev :=
  t1 ++ (if env.stagingPreexists then [Ev.rmtreeOldStaging] else [])
     ++ [Ev.makeStaging, Ev.findChapters]

/-- `merge_chapters` from the staging-directory setup onward (lines 108-209),
with `t1` the events of the pre-flight checks and `cover` the (truthy) cover
path, if any.  Early exits: no chapters in range (lines 118-120, the staging
directory is *not* removed), cover copy failure (lines 142-144, likewise);
otherwise the run proceeds to CBZ creation. -/
def afterStaging (env : Env) (t1 : List Ev) (cover : Option String) : Outcome :=
  if (find_chapter_folders env.listing env.startC env.endC).isEmpty then
    { ret := false, exitAt := .noChapters, cbz := .absent,
      stagingCreated := true, stagingAtEnd := true,
      oldStagingGone := env.stagingPreexists, zipAttempted := false,
      placed := [], totalPages := 0, trace := stagingTrace env t1 }
  else
    match cover with
    | some cp =>
      if env.coverCopyOk then
        zipPhase env (stagingTrace env t1 ++ [Ev.copyCover true]) [coverEntry cp] 2 1
          (find_chapter_folders env.listing env.startC env.endC)
      else
        { ret := false, exitAt := .coverCopyFailed, cbz := .absent,
          stagingCreated := true, stagingAtEnd := true,
          oldStagingGone := env.stagingPreexists, zipAttempted := false,
          placed := [], totalPages := 0,
          trace := stagingTrace env t1 ++ [Ev.copyCover false] }
    | none => zipPhase env (stagingTrace env t1) [] 1 0
        (find_chapter_folders env.listing env.startC env.endC)

/-- The events of the pre-flight checks (lines 85-91): the prompt and the
removal of the pre-existing archive when it exists (and was confirmed). -/
def preTrace (env : Env) : List Ev :=
  if env.cbzExists then [Ev.prompt, Ev.removeCbz] else []

/-- `merge_chapters` (lines 71-209).  Pre-flight order as in the source:
existing-archive prompt and removal (lines 85-91), cover validation
(lines 93-106), staging setup, chapter scan, cover copy, page copies, CBZ
creation.  (The output-folder naming of lines 74-83 is `defaultOutputFolder`;
the paths it produces are abstracted into the `Env` flags.) -/
def merge_chapters (env : Env) : Outcome :=
  if env.cbzExists && !(answersYes env.response) then
    { ret := false, exitAt := .cancelled, cbz := .original,
      stagingCreated := false, stagingAtEnd := env.stagingPreexists,
      oldStagingGone := false, zipAttempted := false,
      placed := [], totalPages := 0, trace := [Ev.prompt] }
  else
    match coverGiven env with
    | some cp =>
      if !env.coverExists then
        { ret := false, exitAt := .coverMissing, cbz := .absent,
          stagingCreated := false, stagingAtEnd := env.stagingPreexists,
          oldStagingGone := false, zipAttempted := false,
          placed := [], totalPages := 0, trace := preTrace env }
      else if !(imageExtensions.contains (splitextExt (toLowerStr cp))) then
        { ret := false, exitAt := .coverBadExt, cbz := .absent,
          stagingCreated := false, stagingAtEnd := env.stagingPreexists,
          oldStagingGone := false, zipAttempted := false,
          placed := [], totalPages := 0, trace := preTrace env }
      else afterStaging env (preTrace env) (some cp)
    | none => afterStaging env (preTrace env) none

/-- Python `str.isdigit` (line 235), restricted to the ASCII range: a
nonempty string of decimal digit characters.  (Real `str.isdigit` also
accepts some Unicode digit characters; the arguments modelled here are
ASCII.) -/
def pyIsDigit (s : String) : Bool :=
  !s.toList.isEmpty && s.toList.all Char.isDigit

/-- ASCII whitespace stripped by Python `int(str)`. -/
def isPySpace (c : Char) : Bool :=
  c = ' ' || c = '\t' || c = '\n' || c = '\r'

/-- Whether a digit run is a valid `int` body: nonempty, all digits. -/
def digitsOnly (cs : List Char) : Bool :=
  !cs.isEmpty && cs.all Char.isDigit

/-- Python `int(str)` (lines 242-243 / 247-251): optional surrounding
whitespace, optional sign, then a nonempty digit run; `none` models the
`ValueError` raised otherwise.  (PEP 515 underscore grouping and non-ASCII
digits are omitted; they play no role in the claims.) -/
def pyIntParses (s : String) : Option Int :=
  let t := ((s.toList.dropWhile isPySpace).reverse.dropWhile isPySpace).reverse
  match t with
  | '-' :: ds => if digitsOnly ds then some (-(digitsVal ds : Int)) else none
  | '+' :: ds => if digitsOnly ds then some ((digitsVal ds : Int)) else none
  | ds => if digitsOnly ds then some ((digitsVal ds : Int)) else none

/-- How `main`'s argument parsing (lines 215-256) ended. -/
inductive ParseResult where
  /-- Fewer than two positional arguments (line 215). -/
  | usage
  /-- Cover branch with fewer than three arguments (lines 238-241). -/
  | notEnoughCover (cover : String)
  /-- `int()` raised `ValueError` (lines 277-279). -/
  | valueError (cover : Option String)
  /-- `start_chapter > end_chapter` (lines 254-256). -/
  | startAfterEnd (cover : Option String) (s e : Int)
  /-- Parsing succeeded with these values. -/
  | ok (cover : Option String) (s e : Int) (out : Option String)
deriving DecidableEq

/-- The argument parsing of `main` (lines 226-256) over the positional
arguments `sys.argv[1:]`.  The first argument is routed to the cover branch
exactly when `args[0].isdigit()` is false (line 235).  (The dead
`len(args) < 2` re-check of lines 248-250 is unreachable once the
`len(sys.argv) < 3` guard has passed and is not modelled.) -/
def parseArgs (args : List String) : ParseResult :=
  match args with
  | [] => .usage
  | [_] => .usage
  | a0 :: a1 :: rest =>
    if !(pyIsDigit a0) then
      match rest with
      | [] => .notEnoughCover a0
      | a2 :: rest2 =>
        match pyIntParses a1 with
        | none => .valueError (some a0)
        | some s =>
          match pyIntParses a2 with
          | none => .valueError (some a0)
          | some e =>
            if s > e then .startAfterEnd (some a0) s e
            else .ok (some a0) s e rest2.head?
    else
      match pyIntParses a0 with
      | none => .valueError none
      | some s =>
        match pyIntParses a1 with
        | none => .valueError none
        | some e =>
          if s > e then .startAfterEnd none s e
          else .ok none s e rest.head?

/-- The cover path a `ParseResult` carries: what `cover_image_path` was
assigned on that path through `main` (it is `args[0]` exactly on the cover
branch, line 237). -/
def coverAssigned : ParseResult → Option String
  | .usage => none
  | .notEnoughCover cp => some cp
  | .valueError cp => cp
  | .startAfterEnd cp _ _ => cp
  | .ok cp _ _ _ => cp

/-- `originalExtension` — modelled from the spec's words "The plan preserves
original file extensions per entry": the extension of the source file taken
as-is, with no case folding.  Used only to compare the spec's claim against
the code's lowercasing behaviour. -/
def originalExtension (name : String) : String := splitextExt name

/-! ### Concrete runs used as witnesses and counterexamples -/

/-- A run with one chapter of one page and a failing CBZ write. -/
def envC1 : Env :=
  { listing := [("Chapter 1", true)],
    folderFiles := fun n => if n = "Chapter 1" then some [("1.jpg", true)] else none,
    startC := 1, endC := 1, cover := none, coverExists := false, coverCopyOk := true,
    cbzExists := false, response := "", stagingPreexists := false,
    copyOk := fun _ _ => true, zipOk := false }

/-- A run whose requested range matches no chapter folders. -/
def envC2 : Env :=
  { listing := [], folderFiles := fun _ => none, startC := 5, endC := 9, cover := none,
    coverExists := false, coverCopyOk := true, cbzExists := false, response := "",
    stagingPreexists := false, copyOk := fun _ _ => true, zipOk := true }

/-- A run with one located chapter that contains no image files. -/
def envC3 : Env :=
  { listing := [("Chapter 4", true)],
    folderFiles := fun n => if n = "Chapter 4" then some [] else none,
    startC := 4, endC := 4, cover := none, coverExists := false, coverCopyOk := true,
    cbzExists := false, response := "", stagingPreexists := false,
    copyOk := fun _ _ => true, zipOk := true }

/-- A run with one chapter whose single page has an uppercase extension. -/
def envC7 : Env :=
  { listing := [("Chapter 1", true)],
    folderFiles := fun n => if n = "Chapter 1" then some [("1.PNG", true)] else none,
    startC := 1, endC := 1, cover := none, coverExists := false, coverCopyOk := true,
    cbzExists := false, response := "", stagingPreexists := false,
    copyOk := fun _ _ => true, zipOk := true }

/-- A run with a pre-existing directory at the staging path. -/
def envC9 : Env :=
  { listing := [("Chapter 2", true)],
    folderFiles := fun n => if n = "Chapter 2" then some [("1.jpg", true)] else none,
    startC := 2, endC := 2, cover := none, coverExists := false, coverCopyOk := true,
    cbzExists := false, response := "", stagingPreexists := true,
    copyOk := fun _ _ => true, zipOk := true }

/-- A run with a pre-existing target archive, confirmed overwrite, and no
chapters in range. -/
def envC10 : Env :=
  { listing := [], folderFiles := fun _ => none, startC := 1, endC := 3, cover := none,
    coverExists := false, coverCopyOk := true, cbzExists := true, response := "y",
    stagingPreexists := false, copyOk := fun _ _ => true, zipOk := true }

/-! ### Sorting helper lemmas -/

/-- Filtering by an exact key commutes with `List.orderedInsert` for the key
order: the inserted element lands in front of all equal-key elements. -/
theorem filterKey_orderedInsert {α : Type} (key : α → Nat) (k : Nat) (x : α) :
    ∀ l : List α, (List.orderedInsert (keyLE key) x l).filter (fun y => key y == k) =
      if key x = k then x :: l.filter (fun y => key y == k)
      else l.filter (fun y => key y == k)
  | [] => by
    by_cases h : key x = k <;> simp [List.orderedInsert, List.filter_cons, h]
  | b :: l => by
    rw [List.orderedInsert]
    by_cases hr : keyLE key x b
    · rw [if_pos hr]
      by_cases h : key x = k <;> simp [List.filter_cons, h]
    · rw [if_neg hr]
      have hxb : key b < key x := Nat.lt_of_not_le (by simpa [keyLE] using hr)
      have ih := filterKey_orderedInsert key k x l
      by_cases h : key x = k
      · have hbk : ¬ key b = k := by omega
        simp [List.filter_cons, h, hbk, ih]
      · simp [List.filter_cons, h, ih]

/-- Filtering by an exact key commutes with the stable insertion sort:
elements with equal keys keep their input order. -/
theorem filterKey_insertionSort {α : Type} (key : α → Nat) (k : Nat) :
    ∀ l : List α, (List.insertionSort (keyLE key) l).filter (fun y => key y == k) =
      l.filter (fun y => key y == k)
  | [] => rfl
  | a :: l => by
    rw [List.insertionSort, filterKey_orderedInsert, filterKey_insertionSort key k l,
      List.filter_cons]
    by_cases h : key a = k <;> simp [h]

/-- Characterization of the chapter-directory filter. -/
theorem chapterEntry_eq_some {startC endC : Int} {p : String × Bool} {n : Nat} {name : String} :
    chapterEntry startC endC p = some (n, name) ↔
      p = (name, true) ∧ chapterMatch name = some n
        ∧ startC ≤ (n : Int) ∧ (n : Int) ≤ endC := by
  obtain ⟨a, d⟩ := p
  constructor
  · intro h
    cases d with
    | false => simp [chapterEntry] at h
    | true =>
      cases hm : chapterMatch a with
      | none => simp [chapterEntry, hm] at h
      | some m =>
        simp only [chapterEntry, hm, if_true] at h
        by_cases hrange : startC ≤ (m : Int) ∧ (m : Int) ≤ endC
        · rw [if_pos hrange] at h
          obtain ⟨hn, ha⟩ : m = n ∧ a = name := by simpa using h
          subst hn
          subst ha
          exact ⟨rfl, hm, hrange.1, hrange.2⟩
        · rw [if_neg hrange] at h
          exact absurd h (by simp)
  · rintro ⟨hp, hm, h1, h2⟩
    obtain ⟨ha, hd⟩ : a = name ∧ d = true := by simpa using hp
    subst ha
    subst hd
    simp [chapterEntry, hm, h1, h2]

/-- Characterization of the image-file filter. -/
theorem imageEntry_eq_some {p : String × Bool} {nm : String} :
    imageEntry p = some nm ↔ p = (nm, true) ∧ isImageName nm = true := by
  obtain ⟨a, d⟩ := p
  cases d with
  | false => simp [imageEntry]
  | true =>
    by_cases hi : isImageName a
    · simp only [imageEntry, hi, Bool.and_true, if_true]
      constructor
      · rintro h
        obtain rfl : a = nm := by simpa using h
        exact ⟨rfl, hi⟩
      · rintro ⟨hp, _⟩
        obtain rfl : a = nm := by simpa using hp
        rfl
    · simp only [imageEntry, hi, Bool.and_false, if_false]
      constructor
      · rintro ⟨⟩
      · rintro ⟨hp, hnm⟩
        obtain rfl : a = nm := by simpa using hp
        exact absurd hnm hi

/-! ### Claims C5 and C6: Chapter Locator and Page Enumerator -/

/-- Claim C5 (confirmed): for every base directory listing and integer range
with start ≤ end, `find_chapter_folders` returns exactly the subdirectories
whose names match `Chapter <integer>` (in the source's `re.match` sense:
an anchored match at the start of the name) with the extracted integer in
`[start, end]`, sorted ascending by chapter number; the returned collection
is invariant under permutations of the filesystem listing order; non-directory
entries and non-matching names are skipped; and when nothing matches the
result is the empty list, not an error. -/
theorem c5_locator (L L' : List (String × Bool)) (startC endC : Int) (n : Nat) (name : String)
    (_h : startC ≤ endC) :
    List.Sorted (keyLE Prod.fst) (find_chapter_folders L startC endC)
    ∧ List.Perm (find_chapter_folders L startC endC) (L.filterMap (chapterEntry startC endC))
    ∧ ((n, name) ∈ find_chapter_folders L startC endC ↔
        ((name, true) ∈ L ∧ chapterMatch name = some n
          ∧ startC ≤ (n : Int) ∧ (n : Int) ≤ endC))
    ∧ (List.Perm L L' →
        List.Perm (find_chapter_folders L startC endC) (find_chapter_folders L' startC endC))
    ∧ ((∀ p ∈ L, chapterEntry startC endC p = none) → find_chapter_folders L startC endC = []) := by
  refine ⟨List.sorted_insertionSort _ _, List.perm_insertionSort _ _, ?_, ?_, ?_⟩
  · rw [show find_chapter_folders L startC endC =
      List.insertionSort (keyLE Prod.fst) (L.filterMap (chapterEntry startC endC)) from rfl]
    rw [(List.perm_insertionSort _ _).mem_iff, List.mem_filterMap]
    constructor
    · rintro ⟨p, hp, hsome⟩
      obtain ⟨rfl, hm, h1, h2⟩ := chapterEntry_eq_some.mp hsome
      exact ⟨hp, hm, h1, h2⟩
    · rintro ⟨hmem, hm, h1, h2⟩
      exact ⟨(name, true), hmem, chapterEntry_eq_some.mpr ⟨rfl, hm, h1, h2⟩⟩
  · intro hLL
    exact ((List.perm_insertionSort _ _).trans (hLL.filterMap _)).trans
      (List.perm_insertionSort _ _).symm
  · intro hall
    rw [show find_chapter_folders L startC endC =
      List.insertionSort (keyLE Prod.fst) (L.filterMap (chapterEntry startC endC)) from rfl]
    rw [List.filterMap_eq_nil_iff.mpr hall]
    rfl

/-- Witness for C5 at a concrete listing, permuted listing and range. -/
theorem c5_locator_witness :
    List.Sorted (keyLE Prod.fst)
      (find_chapter_folders [("Chapter 2", true), ("Chapter 1", true), ("notes", true)] 0 5)
    ∧ List.Perm (find_chapter_folders [("Chapter 2", true), ("Chapter 1", true), ("notes", true)] 0 5)
        ([("Chapter 2", true), ("Chapter 1", true), ("notes", true)].filterMap (chapterEntry 0 5))
    ∧ ((1, "Chapter 1") ∈
          find_chapter_folders [("Chapter 2", true), ("Chapter 1", true), ("notes", true)] 0 5 ↔
        (("Chapter 1", true) ∈ [("Chapter 2", true), ("Chapter 1", true), ("notes", true)]
          ∧ chapterMatch "Chapter 1" = some 1 ∧ (0 : Int) ≤ (1 : Nat) ∧ ((1 : Nat) : Int) ≤ 5))
    ∧ (List.Perm [("Chapter 2", true), ("Chapter 1", true), ("notes", true)]
          [("notes", true), ("Chapter 1", true), ("Chapter 2", true)] →
        List.Perm (find_chapter_folders [("Chapter 2", true), ("Chapter 1", true), ("notes", true)] 0 5)
          (find_chapter_folders [("notes", true), ("Chapter 1", true), ("Chapter 2", true)] 0 5))
    ∧ ((∀ p ∈ [("Chapter 2", true), ("Chapter 1", true), ("notes", true)],
          chapterEntry 0 5 p = none) →
        find_chapter_folders [("Chapter 2", true), ("Chapter 1", true), ("notes", true)] 0 5 = []) :=
  c5_locator [("Chapter 2", true), ("Chapter 1", true), ("notes", true)]
    [("notes", true), ("Chapter 1", true), ("Chapter 2", true)] 0 5 1 "Chapter 1" (by decide)

/-- Claim C6 (confirmed): for every chapter directory, `get_image_files`
returns exactly the regular files whose (case-insensitively lowercased)
extension is one of the recognized image extensions, excluding subdirectories
and other files, ordered ascending by the integer value of the first digit
run in the filename (key 0 when there is none), with ties keeping the stable
listing order; an unreadable folder yields the empty sequence rather than an
error. -/
theorem c6_enumerator (es : List (String × Bool)) (k : Nat) (nm : String) :
    get_image_files none = []
    ∧ List.Sorted (keyLE extractNumber) (get_image_files (some es))
    ∧ List.Perm (get_image_files (some es)) (es.filterMap imageEntry)
    ∧ (nm ∈ get_image_files (some es) ↔ ((nm, true) ∈ es ∧ isImageName nm = true))
    ∧ (get_image_files (some es)).filter (fun f => extractNumber f == k) =
        (es.filterMap imageEntry).filter (fun f => extractNumber f == k) := by
  refine ⟨rfl, List.sorted_insertionSort _ _, List.perm_insertionSort _ _, ?_,
    filterKey_insertionSort extractNumber k _⟩
  rw [show get_image_files (some es) =
    List.insertionSort (keyLE extractNumber) (es.filterMap imageEntry) from rfl]
  rw [(List.perm_insertionSort _ _).mem_iff, List.mem_filterMap]
  constructor
  · rintro ⟨p, hp, hsome⟩
    obtain ⟨rfl, hi⟩ := imageEntry_eq_some.mp hsome
    exact ⟨hp, hi⟩
  · rintro ⟨hmem, hi⟩
    exact ⟨(nm, true), hmem, imageEntry_eq_some.mpr ⟨rfl, hi⟩⟩

/-! ### Placement-loop invariants -/

/-- The page-copy loop of one chapter assigns to its successful copies
exactly the consecutive indices starting at the incoming counter, and
advances both `page_counter` and `total_pages` by the number of successes. -/
theorem placeChapter_spec (ok : String → Bool) (fs : List String) : ∀ c t : Nat,
    (placeChapter ok c t fs).1.map (fun e => e.idx) =
      List.range' c (placeChapter ok c t fs).1.length
    ∧ (placeChapter ok c t fs).2.1 = c + (placeChapter ok c t fs).1.length
    ∧ (placeChapter ok c t fs).2.2 = t + (placeChapter ok c t fs).1.length := by
  induction fs with
  | nil => intro c t; simp [placeChapter]
  | cons f fs ih =>
    intro c t
    by_cases h : ok f
    · have ihh := ih (c + 1) (t + 1)
      simp only [placeChapter, h, if_true]
      refine ⟨?_, ?_, ?_⟩
      · simp only [List.map_cons, List.length_cons, ihh.1, List.range'_succ]
      · simp only [List.length_cons, ihh.2.1]
        omega
      · simp only [List.length_cons, ihh.2.2]
        omega
    · simp only [placeChapter, h, if_false]
      exact ih c t

/-- Every entry placed by the page-copy loop is named by padding its own
index and appending the lowercased extension of its own source, and is not a
cover entry. -/
theorem placeChapter_staged (ok : String → Bool) (fs : List String) : ∀ c t : Nat,
    ∀ e ∈ (placeChapter ok c t fs).1,
      e.staged = pad3 e.idx ++ splitextExt (toLowerStr e.source) ∧ e.isCover = false := by
  induction fs with
  | nil => intro c t e he; simp [placeChapter] at he
  | cons f fs ih =>
    intro c t e he
    by_cases h : ok f
    · simp only [placeChapter, h, if_true, List.mem_cons] at he
      cases he with
      | inl he => subst he; exact ⟨rfl, rfl⟩
      | inr he => exact ih (c + 1) (t + 1) e he
    · simp only [placeChapter, h, if_false] at he
      exact ih c t e he

/-- Two consecutive index ranges concatenate to one. -/
theorem range'_glue (s m n : Nat) :
    List.range' s m ++ List.range' (s + m) n = List.range' s (m + n) := by
  rw [Nat.add_comm m n]
  exact List.range'_append_1 s m n

/-- The chapter loop assigns to all successful copies exactly the
consecutive indices starting at the incoming counter, and advances both
counters by the number of successes, across any number of chapters
(including chapters contributing zero pages). -/
theorem placeChapters_spec (env : Env) (chs : List (Nat × String)) : ∀ c t : Nat,
    (placeChapters env c t chs).1.map (fun e => e.idx) =
      List.range' c (placeChapters env c t chs).1.length
    ∧ (placeChapters env c t chs).2.1 = c + (placeChapters env c t chs).1.length
    ∧ (placeChapters env c t chs).2.2 = t + (placeChapters env c t chs).1.length := by
  induction chs with
  | nil => intro c t; simp [placeChapters]
  | cons ch rest ih =>
    intro c t
    by_cases h : (get_image_files (env.folderFiles ch.2)).isEmpty
    · simp only [placeChapters]
      rw [if_pos h]
      exact ih c t
    · have h1 := placeChapter_spec (env.copyOk ch.2) (get_image_files (env.folderFiles ch.2)) c t
      have h2 := ih (placeChapter (env.copyOk ch.2) c t (get_image_files (env.folderFiles ch.2))).2.1
        (placeChapter (env.copyOk ch.2) c t (get_image_files (env.folderFiles ch.2))).2.2
      simp only [placeChapters]
      rw [if_neg h]
      refine ⟨?_, ?_, ?_⟩
      · rw [List.map_append, h1.1, h2.1, List.length_append, h1.2.1]
        exact range'_glue c _ _
      · rw [h2.2.1, h1.2.1, List.length_append]
        omega
      · rw [h2.2.2, h1.2.2, List.length_append]
        omega

/-- Every entry placed by the chapter loop has the staged-name form. -/
theorem placeChapters_staged (env : Env) (chs : List (Nat × String)) : ∀ c t : Nat,
    ∀ e ∈ (placeChapters env c t chs).1,
      e.staged = pad3 e.idx ++ splitextExt (toLowerStr e.source) ∧ e.isCover = false := by
  induction chs with
  | nil => intro c t e he; simp [placeChapters] at he
  | cons ch rest ih =>
    intro c t e he
    by_cases h : (get_image_files (env.folderFiles ch.2)).isEmpty
    · simp only [placeChapters] at he
      rw [if_pos h] at he
      exact ih c t e he
    · simp only [placeChapters] at he
      rw [if_neg h] at he
      rw [List.mem_append] at he
      cases he with
      | inl he => exact placeChapter_staged (env.copyOk ch.2) _ c t e he
      | inr he => exact ih _ _ e he

/-! ### Shape of a `merge_chapters` run -/

/-- After staging, a run either exits early with nothing placed, or hands off
to the CBZ-creation phase with initial entries that carry the indices
`1..t0`. -/
theorem afterStaging_shape (env : Env) (t1 : List Ev) (cover : Option String) :
    ((afterStaging env t1 cover).placed = [] ∧ (afterStaging env t1 cover).totalPages = 0
      ∧ (afterStaging env t1 cover).zipAttempted = false)
    ∨ ∃ tr plc0 c0 t0,
        afterStaging env t1 cover =
          zipPhase env tr plc0 c0 t0 (find_chapter_folders env.listing env.startC env.endC)
        ∧ plc0.map (fun e => e.idx) = List.range' 1 t0
        ∧ c0 = 1 + t0
        ∧ ∀ e ∈ plc0, e.staged = pad3 e.idx ++ splitextExt (toLowerStr e.source) := by
  by_cases h : (find_chapter_folders env.listing env.startC env.endC).isEmpty
  · left
    simp only [afterStaging]
    rw [if_pos h]
    exact ⟨rfl, rfl, rfl⟩
  · cases cover with
    | none =>
      right
      refine ⟨stagingTrace env t1, [], 1, 0, ?_, rfl, rfl, ?_⟩
      · simp only [afterStaging]
        rw [if_neg h]
      · intro e he
        simp at he
    | some cp =>
      by_cases hok : env.coverCopyOk = true
      · right
        refine ⟨stagingTrace env t1 ++ [Ev.copyCover true], [coverEntry cp], 2, 1, ?_, rfl, rfl, ?_⟩
        · simp only [afterStaging]
          rw [if_neg h, if_pos hok]
        · intro e he
          obtain rfl : e = coverEntry cp := by simpa using he
          exact rfl
      · left
        simp only [afterStaging]
        rw [if_neg h, if_neg hok]
        exact ⟨rfl, rfl, rfl⟩

/-- A whole run either exits early with nothing placed and no CBZ attempt,
or is exactly a CBZ-creation phase whose initial entries carry the indices
`1..t0` and have the staged-name form. -/
theorem merge_shape (env : Env) :
    ((merge_chapters env).placed = [] ∧ (merge_chapters env).totalPages = 0
      ∧ (merge_chapters env).zipAttempted = false)
    ∨ ∃ tr plc0 c0 t0,
        merge_chapters env =
          zipPhase env tr plc0 c0 t0 (find_chapter_folders env.listing env.startC env.endC)
        ∧ plc0.map (fun e => e.idx) = List.range' 1 t0
        ∧ c0 = 1 + t0
        ∧ ∀ e ∈ plc0, e.staged = pad3 e.idx ++ splitextExt (toLowerStr e.source) := by
  by_cases hg : (env.cbzExists && !(answersYes env.response)) = true
  · left
    simp only [merge_chapters]
    rw [if_pos hg]
    exact ⟨rfl, rfl, rfl⟩
  · cases hcov : coverGiven env with
    | none =>
      have hme : merge_chapters env = afterStaging env (preTrace env) none := by
        simp only [merge_chapters, hcov]
        rw [if_neg hg]
      rw [hme]
      exact afterStaging_shape env (preTrace env) none
    | some cp =>
      by_cases he : env.coverExists = true
      · by_cases hx : imageExtensions.contains (splitextExt (toLowerStr cp)) = true
        · have hme : merge_chapters env = afterStaging env (preTrace env) (some cp) := by
            simp only [merge_chapters, hcov]
            rw [if_neg hg, if_neg (by simp [he]), if_neg (by rw [hx]; simp)]
          rw [hme]
          exact afterStaging_shape env (preTrace env) (some cp)
        · left
          simp only [merge_chapters, hcov]
          rw [if_neg hg, if_neg (by simp [he]),
            if_pos (by simp only [Bool.not_eq_true] at hx; rw [hx]; rfl)]
          exact ⟨rfl, rfl, rfl⟩
      · left
        simp only [merge_chapters, hcov]
        rw [if_neg hg, if_pos (by simp [he])]
        exact ⟨rfl, rfl, rfl⟩

/-! ### Field lemmas for the CBZ-creation phase and the post-staging runs -/

/-- All fields of a CBZ-creation phase outcome. -/
theorem zipPhase_fields (env : Env) (tr : List Ev) (plc0 : List Placed) (c t0 : Nat)
    (chs : List (Nat × String)) :
    (zipPhase env tr plc0 c t0 chs).placed = plc0 ++ (placeChapters env c t0 chs).1
    ∧ (zipPhase env tr plc0 c t0 chs).totalPages = (placeChapters env c t0 chs).2.2
    ∧ (zipPhase env tr plc0 c t0 chs).zipAttempted = true
    ∧ (zipPhase env tr plc0 c t0 chs).stagingCreated = true
    ∧ (zipPhase env tr plc0 c t0 chs).stagingAtEnd = false
    ∧ (zipPhase env tr plc0 c t0 chs).oldStagingGone = env.stagingPreexists
    ∧ (zipPhase env tr plc0 c t0 chs).ret = env.zipOk
    ∧ (zipPhase env tr plc0 c t0 chs).cbz =
        (if env.zipOk then
          CbzStatus.complete ((plc0 ++ (placeChapters env c t0 chs).1).map (fun e => e.staged))
        else CbzStatus.incomplete)
    ∧ ((zipPhase env tr plc0 c t0 chs).exitAt =
        (if env.zipOk then ExitPoint.success else ExitPoint.zipFailed))
    ∧ ∃ ts, (zipPhase env tr plc0 c t0 chs).trace = tr ++ ts := by
  by_cases hz : env.zipOk = true <;> simp [zipPhase, hz]

/-- All post-staging runs create the staging directory and delete a
pre-existing one; they either exit early (staging left, no CBZ touched) or
run the CBZ-creation phase (staging removed). -/
theorem afterStaging_cases (env : Env) (t1 : List Ev) (cover : Option String) :
    (afterStaging env t1 cover).stagingCreated = true
    ∧ (afterStaging env t1 cover).oldStagingGone = env.stagingPreexists
    ∧ (((afterStaging env t1 cover).stagingAtEnd = true
        ∧ (afterStaging env t1 cover).zipAttempted = false
        ∧ (afterStaging env t1 cover).cbz = CbzStatus.absent
        ∧ (afterStaging env t1 cover).ret = false
        ∧ ((afterStaging env t1 cover).exitAt = ExitPoint.noChapters
          ∨ (afterStaging env t1 cover).exitAt = ExitPoint.coverCopyFailed))
      ∨ ((afterStaging env t1 cover).stagingAtEnd = false
        ∧ (afterStaging env t1 cover).zipAttempted = true
        ∧ ((afterStaging env t1 cover).exitAt = ExitPoint.success
          ∨ (afterStaging env t1 cover).exitAt = ExitPoint.zipFailed))) := by
  by_cases h : (find_chapter_folders env.listing env.startC env.endC).isEmpty
  · simp only [afterStaging]
    rw [if_pos h]
    exact ⟨rfl, rfl, Or.inl ⟨rfl, rfl, rfl, rfl, Or.inl rfl⟩⟩
  · cases cover with
    | none =>
      have hme : afterStaging env t1 none = zipPhase env (stagingTrace env t1) [] 1 0
          (find_chapter_folders env.listing env.startC env.endC) := by
        simp only [afterStaging]
        rw [if_neg h]
      rw [hme]
      obtain ⟨_, _, hza, hsc, hse, hog, _, _, hex, _⟩ :=
        zipPhase_fields env (stagingTrace env t1) [] 1 0
          (find_chapter_folders env.listing env.startC env.endC)
      refine ⟨hsc, hog, Or.inr ⟨hse, hza, ?_⟩⟩
      rw [hex]
      by_cases hz : env.zipOk = true
      · rw [if_pos hz]; exact Or.inl rfl
      · rw [if_neg hz]; exact Or.inr rfl
    | some cp =>
      by_cases hok : env.coverCopyOk = true
      · have hme : afterStaging env t1 (some cp) =
            zipPhase env (stagingTrace env t1 ++ [Ev.copyCover true]) [coverEntry cp] 2 1
              (find_chapter_folders env.listing env.startC env.endC) := by
          simp only [afterStaging]
          rw [if_neg h, if_pos hok]
        rw [hme]
        obtain ⟨_, _, hza, hsc, hse, hog, _, _, hex, _⟩ :=
          zipPhase_fields env (stagingTrace env t1 ++ [Ev.copyCover true]) [coverEntry cp] 2 1
            (find_chapter_folders env.listing env.startC env.endC)
        refine ⟨hsc, hog, Or.inr ⟨hse, hza, ?_⟩⟩
        rw [hex]
        by_cases hz : env.zipOk = true
        · rw [if_pos hz]; exact Or.inl rfl
        · rw [if_neg hz]; exact Or.inr rfl
      · simp only [afterStaging]
        rw [if_neg h, if_neg hok]
        exact ⟨rfl, rfl, Or.inl ⟨rfl, rfl, rfl, rfl, Or.inr rfl⟩⟩

/-- The trace of any post-staging run starts with the pre-flight events, the
deletion of a pre-existing staging directory (when there is one), the staging
creation, and the chapter scan, in that order. -/
theorem afterStaging_trace (env : Env) (t1 : List Ev) (cover : Option String) :
    ∃ t, (afterStaging env t1 cover).trace =
      t1 ++ (if env.stagingPreexists then [Ev.rmtreeOldStaging] else [])
         ++ Ev.makeStaging :: Ev.findChapters :: t := by
  by_cases h : (find_chapter_folders env.listing env.startC env.endC).isEmpty
  · refine ⟨[], ?_⟩
    simp only [afterStaging]
    rw [if_pos h]
    simp [stagingTrace]
  · cases cover with
    | none =>
      have hme : afterStaging env t1 none = zipPhase env (stagingTrace env t1) [] 1 0
          (find_chapter_folders env.listing env.startC env.endC) := by
        simp only [afterStaging]
        rw [if_neg h]
      obtain ⟨ts, hts⟩ := (zipPhase_fields env (stagingTrace env t1) [] 1 0
        (find_chapter_folders env.listing env.startC env.endC)).2.2.2.2.2.2.2.2.2
      refine ⟨ts, ?_⟩
      rw [hme, hts]
      simp [stagingTrace]
    | some cp =>
      by_cases hok : env.coverCopyOk = true
      · have hme : afterStaging env t1 (some cp) =
            zipPhase env (stagingTrace env t1 ++ [Ev.copyCover true]) [coverEntry cp] 2 1
              (find_chapter_folders env.listing env.startC env.endC) := by
          simp only [afterStaging]
          rw [if_neg h, if_pos hok]
        obtain ⟨ts, hts⟩ := (zipPhase_fields env (stagingTrace env t1 ++ [Ev.copyCover true])
          [coverEntry cp] 2 1
          (find_chapter_folders env.listing env.startC env.endC)).2.2.2.2.2.2.2.2.2
        refine ⟨Ev.copyCover true :: ts, ?_⟩
        rw [hme, hts]
        simp [stagingTrace]
      · refine ⟨[Ev.copyCover false], ?_⟩
        simp only [afterStaging]
        rw [if_neg h, if_neg hok]
        simp [stagingTrace]

/-- With the overwrite gate passed and no (truthy) cover, the run is exactly
the post-staging run. -/
theorem merge_eq_afterStaging_none (env : Env)
    (hg : ¬(env.cbzExists && !(answersYes env.response)) = true)
    (hcov : coverGiven env = none) :
    merge_chapters env = afterStaging env (preTrace env) none := by
  simp only [merge_chapters, hcov]
  rw [if_neg hg]

/-- With the overwrite gate passed and a valid cover, the run is exactly the
post-staging run with that cover. -/
theorem merge_eq_afterStaging_some (env : Env) (cp : String)
    (hg : ¬(env.cbzExists && !(answersYes env.response)) = true)
    (hcov : coverGiven env = some cp)
    (he : env.coverExists = true)
    (hx : imageExtensions.contains (splitextExt (toLowerStr cp)) = true) :
    merge_chapters env = afterStaging env (preTrace env) (some cp) := by
  simp only [merge_chapters, hcov]
  rw [if_neg hg, if_neg (by simp [he]), if_neg (by rw [hx]; simp)]

/-- Case analysis of a whole run by what happened to the staging directory. -/
theorem merge_cases (env : Env) :
    ((merge_chapters env).stagingCreated = false
      ∧ (merge_chapters env).stagingAtEnd = env.stagingPreexists)
    ∨ ((merge_chapters env).stagingCreated = true
      ∧ (((merge_chapters env).stagingAtEnd = true
          ∧ (merge_chapters env).zipAttempted = false
          ∧ (merge_chapters env).cbz = CbzStatus.absent
          ∧ (merge_chapters env).ret = false
          ∧ ((merge_chapters env).exitAt = ExitPoint.noChapters
            ∨ (merge_chapters env).exitAt = ExitPoint.coverCopyFailed))
        ∨ ((merge_chapters env).stagingAtEnd = false
          ∧ (merge_chapters env).zipAttempted = true
          ∧ ((merge_chapters env).exitAt = ExitPoint.success
            ∨ (merge_chapters env).exitAt = ExitPoint.zipFailed)))) := by
  by_cases hg : (env.cbzExists && !(answersYes env.response)) = true
  · left
    simp only [merge_chapters]
    rw [if_pos hg]
    exact ⟨rfl, rfl⟩
  · cases hcov : coverGiven env with
    | none =>
      rw [merge_eq_afterStaging_none env hg hcov]
      obtain ⟨hsc, _, hrest⟩ := afterStaging_cases env (preTrace env) none
      exact Or.inr ⟨hsc, hrest⟩
    | some cp =>
      by_cases he : env.coverExists = true
      · by_cases hx : imageExtensions.contains (splitextExt (toLowerStr cp)) = true
        · rw [merge_eq_afterStaging_some env cp hg hcov he hx]
          obtain ⟨hsc, _, hrest⟩ := afterStaging_cases env (preTrace env) (some cp)
          exact Or.inr ⟨hsc, hrest⟩
        · left
          simp only [merge_chapters, hcov]
          rw [if_neg hg, if_neg (by simp [he]),
            if_pos (by simp only [Bool.not_eq_true] at hx; rw [hx]; rfl)]
          exact ⟨rfl, rfl⟩
      · left
        simp only [merge_chapters, hcov]
        rw [if_neg hg, if_pos (by simp [he])]
        exact ⟨rfl, rfl⟩

/-- Once the overwrite gate has been passed, every trace starts with the
pre-flight events. -/
theorem merge_trace (env : Env)
    (hg : ¬(env.cbzExists && !(answersYes env.response)) = true) :
    ∃ t, (merge_chapters env).trace = preTrace env ++ t := by
  cases hcov : coverGiven env with
  | none =>
    rw [merge_eq_afterStaging_none env hg hcov]
    obtain ⟨t, ht⟩ := afterStaging_trace env (preTrace env) none
    exact ⟨_, by rw [ht, List.append_assoc]⟩
  | some cp =>
    by_cases he : env.coverExists = true
    · by_cases hx : imageExtensions.contains (splitextExt (toLowerStr cp)) = true
      · rw [merge_eq_afterStaging_some env cp hg hcov he hx]
        obtain ⟨t, ht⟩ := afterStaging_trace env (preTrace env) (some cp)
        exact ⟨_, by rw [ht, List.append_assoc]⟩
      · refine ⟨[], ?_⟩
        simp only [merge_chapters, hcov]
        rw [if_neg hg, if_neg (by simp [he]),
          if_pos (by simp only [Bool.not_eq_true] at hx; rw [hx]; rfl)]
        simp
    · refine ⟨[], ?_⟩
      simp only [merge_chapters, hcov]
      rw [if_neg hg, if_pos (by simp [he])]
      simp

/-- Once the overwrite gate has been passed, a run that never entered CBZ
creation leaves no file at the target archive path and returns `False`. -/
theorem merge_nozip_cbz (env : Env)
    (hg : ¬(env.cbzExists && !(answersYes env.response)) = true)
    (hza : (merge_chapters env).zipAttempted = false) :
    (merge_chapters env).cbz = CbzStatus.absent ∧ (merge_chapters env).ret = false := by
  cases hcov : coverGiven env with
  | none =>
    rw [merge_eq_afterStaging_none env hg hcov] at hza ⊢
    obtain ⟨_, _, hrest⟩ := afterStaging_cases env (preTrace env) none
    rcases hrest with ⟨_, _, hcbz, hret, _⟩ | ⟨_, hza2, _⟩
    · exact ⟨hcbz, hret⟩
    · rw [hza2] at hza
      exact absurd hza (by simp)
  | some cp =>
    by_cases he : env.coverExists = true
    · by_cases hx : imageExtensions.contains (splitextExt (toLowerStr cp)) = true
      · rw [merge_eq_afterStaging_some env cp hg hcov he hx] at hza ⊢
        obtain ⟨_, _, hrest⟩ := afterStaging_cases env (preTrace env) (some cp)
        rcases hrest with ⟨_, _, hcbz, hret, _⟩ | ⟨_, hza2, _⟩
        · exact ⟨hcbz, hret⟩
        · rw [hza2] at hza
          exact absurd hza (by simp)
      · simp only [merge_chapters, hcov]
        rw [if_neg hg, if_neg (by simp [he]),
          if_pos (by simp only [Bool.not_eq_true] at hx; rw [hx]; rfl)]
        exact ⟨rfl, rfl⟩
    · simp only [merge_chapters, hcov]
      rw [if_neg hg, if_pos (by simp [he])]
      exact ⟨rfl, rfl⟩

/-! ### Claim C4: contiguous sequence indices -/

/-- Claim C4 (confirmed): in every merge run the page indices assigned to the
successfully placed entries (cover first if supplied, then each chapter's
pages in chapter order) are exactly the contiguous sequence
`1..totalPages`, with no gaps or duplicates, even when chapters contribute
zero pages or individual page copies fail and are skipped (the counter only
advances on a successful copy). -/
theorem c4_contiguous (env : Env) :
    (merge_chapters env).placed.map (fun e => e.idx) =
      List.range' 1 (merge_chapters env).totalPages := by
  rcases merge_shape env with ⟨h1, h2, _⟩ | ⟨tr, plc0, c0, t0, heq, hmap, hc0, _⟩
  · rw [h1, h2]
    rfl
  · rw [heq]
    obtain ⟨hp, ht, _, _, _, _, _, _, _, _⟩ :=
      zipPhase_fields env tr plc0 c0 t0 (find_chapter_folders env.listing env.startC env.endC)
    rw [hp, ht]
    have hs := placeChapters_spec env (find_chapter_folders env.listing env.startC env.endC) c0 t0
    rw [List.map_append, hmap, hs.1, hs.2.2, hc0]
    exact range'_glue 1 t0 _

/-! ### Claim C1: partial archive on a failed CBZ write -/

/-- Claim C1 (corrected): counterexample — in a run with no pre-existing
archive whose CBZ write fails mid-write, a partially-written archive remains
at the target path, so neither "no file at the target path" nor "pre-existing
file untouched" holds. -/
theorem c1_counterexample :
    envC1.cbzExists = false
    ∧ (merge_chapters envC1).ret = false
    ∧ (merge_chapters envC1).cbz = CbzStatus.incomplete := by
  refine ⟨rfl, ?_, ?_⟩ <;> decide

/-- Claim C1 (amended, proved): when the CBZ write fails, the run returns
`False` and removes the staging directory, but the partially-written archive
*remains* at the target path. -/
theorem c1_amended (env : Env) (h1 : (merge_chapters env).zipAttempted = true)
    (h2 : env.zipOk = false) :
    (merge_chapters env).cbz = CbzStatus.incomplete
    ∧ (merge_chapters env).stagingAtEnd = false
    ∧ (merge_chapters env).ret = false := by
  rcases merge_shape env with ⟨_, _, hz⟩ | ⟨tr, plc0, c0, t0, heq, _, _, _⟩
  · rw [hz] at h1
    exact absurd h1 (by simp)
  · rw [heq]
    obtain ⟨_, _, _, _, hse, _, hret, hcbz, _, _⟩ :=
      zipPhase_fields env tr plc0 c0 t0 (find_chapter_folders env.listing env.startC env.endC)
    refine ⟨?_, hse, ?_⟩
    · rw [hcbz, if_neg (by simp [h2])]
    · rw [hret, h2]

/-- Witness for the amended C1 at the concrete failing run. -/
theorem c1_amended_witness :
    (merge_chapters envC1).cbz = CbzStatus.incomplete
    ∧ (merge_chapters envC1).stagingAtEnd = false
    ∧ (merge_chapters envC1).ret = false :=
  c1_amended envC1 (by decide) (by decide)

/-! ### Claim C2: staging directory cleanup -/

/-- Claim C2 (corrected): counterexample — a run that creates the staging
directory and then finds no chapters in range returns with the staging
directory still in existence. -/
theorem c2_counterexample :
    (merge_chapters envC2).stagingCreated = true
    ∧ (merge_chapters envC2).stagingAtEnd = true
    ∧ (merge_chapters envC2).exitAt = ExitPoint.noChapters
    ∧ (merge_chapters envC2).ret = false := by
  refine ⟨?_, ?_, ?_, ?_⟩ <;> decide

/-- Claim C2 (amended, proved): when the run creates the staging directory,
the directory survives the call exactly on the no-chapters-found and
cover-copy-failure exits; on the paths that reach CBZ creation (success or
write failure) it is removed. -/
theorem c2_amended (env : Env) (h : (merge_chapters env).stagingCreated = true) :
    (merge_chapters env).stagingAtEnd = true ↔
      ((merge_chapters env).exitAt = ExitPoint.noChapters
        ∨ (merge_chapters env).exitAt = ExitPoint.coverCopyFailed) := by
  rcases merge_cases env with ⟨hsc, _⟩ | ⟨_, ⟨hse, _, _, _, hex⟩ | ⟨hse, _, hex⟩⟩
  · rw [hsc] at h
    exact absurd h (by simp)
  · rw [hse]
    exact ⟨fun _ => hex, fun _ => rfl⟩
  · rw [hse]
    constructor
    · intro hh
      exact absurd hh (by simp)
    · intro hh
      rcases hex with hex | hex <;> rcases hh with hh | hh <;> rw [hex] at hh <;> simp at hh
  
/-- Witness for the amended C2 at the concrete no-chapters run. -/
theorem c2_amended_witness :
    (merge_chapters envC2).stagingAtEnd = true ↔
      ((merge_chapters envC2).exitAt = ExitPoint.noChapters
        ∨ (merge_chapters envC2).exitAt = ExitPoint.coverCopyFailed) :=
  c2_amended envC2 (by decide)

/-! ### Claim C3: empty plan -/

/-- Claim C3 (corrected): counterexample — with no cover and one located
chapter contributing zero pages, the run succeeds (`True`) and produces a
zero-page archive at the target path; there is no "nothing to merge"
failure. -/
theorem c3_counterexample :
    (merge_chapters envC3).ret = true
    ∧ (merge_chapters envC3).cbz = CbzStatus.complete []
    ∧ (merge_chapters envC3).totalPages = 0 := by
  refine ⟨?_, ?_, ?_⟩ <;> decide

/-- Claim C3 (amended, proved): a run with no cover that reaches CBZ creation
with an empty plan and a succeeding write reports success and produces a
zero-entry archive at the target path. -/
theorem c3_amended (env : Env) (_hcov : coverGiven env = none)
    (hza : (merge_chapters env).zipAttempted = true)
    (hpl : (merge_chapters env).placed = [])
    (hz : env.zipOk = true) :
    (merge_chapters env).ret = true
    ∧ (merge_chapters env).cbz = CbzStatus.complete [] := by
  rcases merge_shape env with ⟨_, _, hza2⟩ | ⟨tr, plc0, c0, t0, heq, _, _, _⟩
  · rw [hza2] at hza
    exact absurd hza (by simp)
  · rw [heq] at hpl ⊢
    obtain ⟨hp, _, _, _, _, _, hret, hcbz, _, _⟩ :=
      zipPhase_fields env tr plc0 c0 t0 (find_chapter_folders env.listing env.startC env.endC)
    rw [hp] at hpl
    constructor
    · rw [hret, hz]
    · rw [hcbz, if_pos hz, hpl]
      rfl

/-- Witness for the amended C3 at the concrete empty-chapter run. -/
theorem c3_amended_witness :
    (merge_chapters envC3).ret = true
    ∧ (merge_chapters envC3).cbz = CbzStatus.complete [] :=
  c3_amended envC3 rfl (by decide) (by decide) rfl

/-! ### Claim C7: output extensions -/

/-- Claim C7 (corrected): counterexample — the source page `1.PNG` is staged
as `001.png`: the extension used in the output entry name is the lowercased
one, not the source file's original extension preserved as-is, which would
give `001.PNG`. -/
theorem c7_counterexample :
    (merge_chapters envC7).placed.map (fun e => e.staged) = ["001.png"]
    ∧ (merge_chapters envC7).placed.map (fun e => pad3 e.idx ++ originalExtension e.source) =
        ["001.PNG"]
    ∧ ("001.png" : String) ≠ "001.PNG" := by
  refine ⟨?_, ?_, ?_⟩ <;> decide

/-- Claim C7 (amended, proved): every placed entry (cover or chapter page) is
named `{index:03d}{extension}` where the extension is that of the
*lowercased* source name — original extensions are preserved only up to
lowercasing. -/
theorem c7_amended (env : Env) (e : Placed) (he : e ∈ (merge_chapters env).placed) :
    e.staged = pad3 e.idx ++ splitextExt (toLowerStr e.source) := by
  rcases merge_shape env with ⟨h1, _, _⟩ | ⟨tr, plc0, c0, t0, heq, _, _, hst⟩
  · rw [h1] at he
    simp at he
  · rw [heq] at he
    obtain ⟨hp, _, _, _, _, _, _, _, _, _⟩ :=
      zipPhase_fields env tr plc0 c0 t0 (find_chapter_folders env.listing env.startC env.endC)
    rw [hp, List.mem_append] at he
    cases he with
    | inl h => exact hst e h
    | inr h => exact (placeChapters_staged env _ c0 t0 e h).1

/-- Witness for the amended C7 at the concrete uppercase-extension run. -/
theorem c7_amended_witness :
    (⟨1, "1.PNG", "001.png", false⟩ : Placed).staged =
      pad3 (⟨1, "1.PNG", "001.png", false⟩ : Placed).idx ++
        splitextExt (toLowerStr (⟨1, "1.PNG", "001.png", false⟩ : Placed).source) :=
  c7_amended envC7 ⟨1, "1.PNG", "001.png", false⟩ (by decide)

/-! ### Claim C8: first-argument routing -/

/-- Claim C8 (corrected): counterexample — `"-5"` is parseable as the integer
`-5`, yet the parser routes it to the cover branch (because `str.isdigit` is
false for it), assigning it as the cover path. -/
theorem c8_counterexample :
    coverAssigned (parseArgs ["-5", "3", "7"]) = some "-5"
    ∧ pyIntParses "-5" = some (-5) := by
  refine ⟨?_, ?_⟩ <;> decide

/-- Claim C8 (amended, proved): with at least two positional arguments, the
first argument is assigned as the cover path exactly when it fails
`str.isdigit` (i.e. is not a nonempty string of digit characters) — not when
it fails to parse as an integer; signed numerals such as `"-5"` parse as
integers but are still routed to the cover branch. -/
theorem c8_amended (a0 a1 : String) (rest : List String) :
    coverAssigned (parseArgs (a0 :: a1 :: rest)) =
      (if pyIsDigit a0 then none else some a0) := by
  by_cases hd : pyIsDigit a0 = true
  · rw [if_pos hd]
    simp only [parseArgs]
    rw [if_neg (by simp [hd])]
    cases pyIntParses a0 with
    | none => rfl
    | some s =>
      cases pyIntParses a1 with
      | none => rfl
      | some e =>
        dsimp only
        by_cases hse : s > e
        · rw [if_pos hse]
          rfl
        · rw [if_neg hse]
          rfl
  · rw [if_neg hd]
    simp only [parseArgs]
    rw [if_pos (by simp [hd])]
    cases rest with
    | nil => rfl
    | cons a2 rest2 =>
      dsimp only
      cases pyIntParses a1 with
      | none => rfl
      | some s =>
        cases pyIntParses a2 with
        | none => rfl
        | some e =>
          dsimp only
          by_cases hse : s > e
          · rw [if_pos hse]
            rfl
          · rw [if_neg hse]
            rfl

/-! ### Claim C9: pre-existing staging directory is replaced -/

/-- Claim C9 (confirmed): in every run that reaches staging creation, a
directory already existing at the staging path is recursively deleted, with
no confirmation prompt tied to it, immediately before the staging directory
is created (the only events before the deletion are the pre-flight
archive-overwrite events, and the creation follows it directly). -/
theorem c9_staging_replace (env : Env) (hpre : env.stagingPreexists = true)
    (hgate : env.cbzExists = true → answersYes env.response = true)
    (hcov : ∀ cp, coverGiven env = some cp →
      env.coverExists = true ∧ imageExtensions.contains (splitextExt (toLowerStr cp)) = true) :
    (∃ t, (merge_chapters env).trace =
        preTrace env ++ Ev.rmtreeOldStaging :: Ev.makeStaging :: Ev.findChapters :: t)
    ∧ (merge_chapters env).oldStagingGone = true
    ∧ (merge_chapters env).stagingCreated = true := by
  have hg : ¬(env.cbzExists && !(answersYes env.response)) = true := by
    cases hcb : env.cbzExists
    · simp
    · simp [hgate hcb]
  have hme : ∃ cov, merge_chapters env = afterStaging env (preTrace env) cov := by
    cases hcov2 : coverGiven env with
    | none => exact ⟨none, merge_eq_afterStaging_none env hg hcov2⟩
    | some cp =>
      obtain ⟨he, hx⟩ := hcov cp hcov2
      exact ⟨some cp, merge_eq_afterStaging_some env cp hg hcov2 he hx⟩
  obtain ⟨cov, hme⟩ := hme
  rw [hme]
  obtain ⟨hsc, hog, _⟩ := afterStaging_cases env (preTrace env) cov
  refine ⟨?_, ?_, hsc⟩
  · obtain ⟨t, ht⟩ := afterStaging_trace env (preTrace env) cov
    rw [hpre] at ht
    refine ⟨t, ?_⟩
    rw [ht]
    simp
  · rw [hog, hpre]

/-- Witness for C9 at the concrete run with a pre-existing staging
directory. -/
theorem c9_staging_replace_witness :
    (∃ t, (merge_chapters envC9).trace =
        preTrace envC9 ++ Ev.rmtreeOldStaging :: Ev.makeStaging :: Ev.findChapters :: t)
    ∧ (merge_chapters envC9).oldStagingGone = true
    ∧ (merge_chapters envC9).stagingCreated = true :=
  c9_staging_replace envC9 rfl (fun h => absurd h (by decide)) (fun _ h => nomatch h)

/-! ### Claim C10: confirmed overwrite deletes the old archive up front -/

/-- Claim C10 (confirmed): whenever an archive already exists at the target
path and the caller confirms overwrite, the pre-existing archive is removed
as the second event of the run — before chapter discovery, staging, or any
copying — so any later exit that never reaches CBZ creation (for example the
no-chapters-found failure) leaves *no* archive at the target path rather than
the original one. -/
theorem c10_overwrite_removal (env : Env) (h1 : env.cbzExists = true)
    (h2 : answersYes env.response = true) :
    (∃ t, (merge_chapters env).trace = Ev.prompt :: Ev.removeCbz :: t)
    ∧ ((merge_chapters env).zipAttempted = false →
        (merge_chapters env).cbz = CbzStatus.absent ∧ (merge_chapters env).ret = false) := by
  have hg : ¬(env.cbzExists && !(answersYes env.response)) = true := by
    simp [h1, h2]
  constructor
  · obtain ⟨t, ht⟩ := merge_trace env hg
    refine ⟨t, ?_⟩
    rw [ht]
    simp [preTrace, h1]
  · intro hza
    exact merge_nozip_cbz env hg hza

/-- Witness for C10 at the concrete confirmed-overwrite, no-chapters run. -/
theorem c10_overwrite_removal_witness :
    (∃ t, (merge_chapters envC10).trace = Ev.prompt :: Ev.removeCbz :: t)
    ∧ ((merge_chapters envC10).zipAttempted = false →
        (merge_chapters envC10).cbz = CbzStatus.absent ∧ (merge_chapters envC10).ret = false) :=
  c10_overwrite_removal envC10 rfl (by decide)
